import Mathlib

/-!
Shallow embedding of the vydra frontend (Next.js/React client) in Lean 4.

The embedding covers:
* the Rewarded-Ad Session Manager (`AdProvider.tsx`): `preloadAd`,
  the `onAdLoaded` / `onAdFailedToLoad` platform callbacks, and
  `showRewardedAd` with its two terminal-event callbacks;
* the Unlock Gate timed modal (`UnlockProModal` in `page.tsx`): the
  countdown interval, the countdown-initialization delay, the ad-loaded
  delay, the cleanup on close, and the unlock-button enablement;
* the Page Controller (`Home` in `page.tsx`): `handleFetch`,
  `handleFormatClick`, `_handleDownload`;
* `sanitizeFilename` (`utils.ts`) together with `encodeURIComponent`
  (the browser primitive `_handleDownload` applies to each query field).

React `useState` cells become fields of explicit state records; timer and
platform callbacks become events of small step functions; browser side
effects (navigation, alerts, platform calls) become explicit effect values.
-/

namespace Vydra

/-! ## Rewarded-Ad Session Manager (`AdProvider.tsx`) -/

/-- A rewarded-ad handle (`RewardedAd`) is opaque; we identify handles by a
natural number. -/
abbrev AdHandle := Nat

/-- The two `useState` cells of `AdProvider`: `rewardedAd` (the stored
handle, `null` encoded as `none`) and `isAdReady`. -/
structure AdState where
  rewardedAd : Option AdHandle
  isAdReady : Bool
deriving Repr, DecidableEq

/-- Initial state of `AdProvider`: `useState<RewardedAd | null>(null)` and
`useState(false)`. -/
def initialAdState : AdState := ⟨none, false⟩

/-- Observable side effects of the ad session manager. -/
inductive AdEffect where
  /-- `window.google_ad_platform.requestRewardedAd({...})` was issued. -/
  | requestAd
  /-- `rewardedAd.show({...})` was invoked on the platform. -/
  | platformShow
  /-- `alert("Ad is not ready yet. Please try again in a moment.")`. -/
  | alertNotReady
  /-- The caller-supplied `onReward` callback was invoked. -/
  | rewardGranted
deriving Repr, DecidableEq

/-- `preloadAd` from `AdProvider.tsx`: sets `isAdReady` to `false` and, if
the platform global is present, issues a `requestRewardedAd` call (whose
`onAdLoaded`/`onAdFailedToLoad` callbacks arrive later as separate events).
`platformPresent` models `window.google_ad_platform` being defined. -/
def preloadAd (platformPresent : Bool) (s : AdState) : AdState × List AdEffect :=
  let s1 : AdState := { s with isAdReady := false }
  if platformPresent then (s1, [AdEffect.requestAd]) else (s1, [])

/-- The `onAdLoaded` callback of `preloadAd`: stores the returned handle
(`setRewardedAd(ad)`) and sets `isAdReady` to `true`. -/
def onAdLoaded (ad : AdHandle) (_s : AdState) : AdState :=
  { rewardedAd := some ad, isAdReady := true }

/-- The `onAdFailedToLoad` callback of `preloadAd`: sets `isAdReady` to
`false`; the stored handle is not touched. -/
def onAdFailedToLoad (s : AdState) : AdState :=
  { s with isAdReady := false }

/-- The pair of callbacks `showRewardedAd` hands to the platform `show`
call; each is a state transformer that also reports its effects. -/
structure ShowCallbacks where
  onUserEarnedReward : AdState → AdState × List AdEffect
  onAdClosed : AdState → AdState × List AdEffect

/-- `showRewardedAd` from `AdProvider.tsx`: if a handle is stored and
`isAdReady` is true, invokes the platform `show` operation with the
earned-reward callback (run `onReward`, then `preloadAd`) and the closed
callback (`preloadAd` only); otherwise raises the blocking alert. The
returned `Option ShowCallbacks` is `some` exactly when `show` was called. -/
def showRewardedAd (platformPresent : Bool) (s : AdState) :
    AdState × List AdEffect × Option ShowCallbacks :=
  if s.rewardedAd.isSome && s.isAdReady then
    (s, [AdEffect.platformShow],
      some
        { onUserEarnedReward := fun s2 =>
            let p := preloadAd platformPresent s2
            (p.1, AdEffect.rewardGranted :: p.2)
          onAdClosed := fun s2 => preloadAd platformPresent s2 })
  else
    (s, [AdEffect.alertNotReady], none)

/-- The callback pair that `showRewardedAd` hands to the platform in the
ready case, written out as a standalone value. -/
def readyShowCallbacks (pp : Bool) : ShowCallbacks where
  onUserEarnedReward := fun s2 =>
    ((preloadAd pp s2).1, AdEffect.rewardGranted :: (preloadAd pp s2).2)
  onAdClosed := fun s2 => preloadAd pp s2

/-- Events driving the ad session manager, as in the source: a `preloadAd`
call, the platform load callbacks, and a `showRewardedAd` call whose shown
ad ends in the earned-reward or the closed terminal event. -/
inductive AdEvent where
  | preload
  | loadSuccess (ad : AdHandle)
  | loadFailure
  | showEarned
  | showClosed
deriving Repr, DecidableEq

/-- One step of the ad session manager. A show event first runs
`showRewardedAd`; when the ad was actually shown, the corresponding
terminal callback runs afterwards. -/
def adStep (platformPresent : Bool) (s : AdState) : AdEvent → AdState
  | AdEvent.preload => (preloadAd platformPresent s).1
  | AdEvent.loadSuccess ad => onAdLoaded ad s
  | AdEvent.loadFailure => onAdFailedToLoad s
  | AdEvent.showEarned =>
    match showRewardedAd platformPresent s with
    | (s1, _, some cbs) => (cbs.onUserEarnedReward s1).1
    | (s1, _, none) => s1
  | AdEvent.showClosed =>
    match showRewardedAd platformPresent s with
    | (s1, _, some cbs) => (cbs.onAdClosed s1).1
    | (s1, _, none) => s1

/-- Run the ad session manager from a state through a list of events. -/
def adRun (platformPresent : Bool) (s : AdState) (evs : List AdEvent) : AdState :=
  evs.foldl (adStep platformPresent) s

/-! ## Unlock Gate timed modal (`UnlockProModal` in `page.tsx`)

The component keeps two `useState` cells (`countdown`, initially 15, and
`isAdLoaded`, initially false) and an effect keyed on `isOpen` that, on
open, creates three timers: `initTimer` (`setTimeout` 0ms, resets the
countdown to 15), `interval` (`setInterval` 1000ms, decrements the
countdown to a floor of 0 and clears itself there), and `adLoadTimer`
(`setTimeout` 2000ms, sets `isAdLoaded`). The effect cleanup — run when
`isOpen` turns false — clears all three timers and resets `isAdLoaded`.
Timers are identified by fresh naturals drawn from `nextId`; a timer
callback fires only while its identifier is still stored, which models
`clearTimeout`/`clearInterval` exactly: a cleared timer never fires. -/

structure ModalState where
  isOpen : Bool
  countdown : Nat
  isAdLoaded : Bool
  initTimer : Option Nat
  intervalTimer : Option Nat
  adLoadTimer : Option Nat
  nextId : Nat
deriving Repr, DecidableEq

/-- Initial state: modal closed, `useState(15)` and `useState(false)`,
no timers scheduled. -/
def initialModalState : ModalState :=
  ⟨false, 15, false, none, none, none, 0⟩

/-- Events of one modal instance: the `isOpen` prop turning true or false
(running the effect body resp. its cleanup), and the three timer
callbacks, each tagged with the identifier of the timer that fired. -/
inductive ModalEvent where
  | open_
  | close
  | fireInit (id : Nat)
  | tick (id : Nat)
  | fireAdLoad (id : Nat)
deriving Repr, DecidableEq

/-- One step of the Unlock Gate modal. `open_` allocates the three timers;
`close` runs the effect cleanup (clear all timers, reset `isAdLoaded`);
a timer event is a no-op unless its identifier is the currently stored
one. The interval body is `prev <= 1 ? (clearInterval; 0) : prev - 1`. -/
def modalStep (s : ModalState) : ModalEvent → ModalState
  | ModalEvent.open_ =>
    if s.isOpen then s
    else
      { s with
        isOpen := true
        initTimer := some s.nextId
        intervalTimer := some (s.nextId + 1)
        adLoadTimer := some (s.nextId + 2)
        nextId := s.nextId + 3 }
  | ModalEvent.close =>
    if s.isOpen then
      { s with
        isOpen := false
        initTimer := none
        intervalTimer := none
        adLoadTimer := none
        isAdLoaded := false }
    else s
  | ModalEvent.fireInit id =>
    if s.initTimer = some id then
      { s with countdown := 15, initTimer := none }
    else s
  | ModalEvent.tick id =>
    if s.intervalTimer = some id then
      if s.countdown ≤ 1 then
        { s with countdown := 0, intervalTimer := none }
      else
        { s with countdown := s.countdown - 1 }
    else s
  | ModalEvent.fireAdLoad id =>
    if s.adLoadTimer = some id then
      { s with isAdLoaded := true, adLoadTimer := none }
    else s

/-- Run the modal from a state through a list of events. -/
def modalRun (s : ModalState) (evs : List ModalEvent) : ModalState :=
  evs.foldl modalStep s

/-- `const isUnlockable = (countdown === 0) && isAdLoaded;` -/
def isUnlockable (s : ModalState) : Bool :=
  decide (s.countdown = 0) && s.isAdLoaded

/-- The unlock button's `disabled={!isUnlockable}` attribute. -/
def unlockDisabled (s : ModalState) : Bool :=
  !isUnlockable s

/-! ## Page Controller (`Home` in `page.tsx`) -/

/-- `FormatInfo` from `types.ts`. -/
structure FormatInfo where
  quality : String
  ext : String
  size_mb : Option Int
  is_premium : Bool
  format_id : String
deriving Repr, DecidableEq

/-- `AnalyzeResponse` from `types.ts`. -/
structure AnalyzeResponse where
  title : String
  thumbnail : Option String
  formats : List FormatInfo
  original_url : String
deriving Repr, DecidableEq

/-- The `useState` cells of the `Home` component. -/
structure PageState where
  url : String
  loading : Bool
  error : Option String
  results : Option AnalyzeResponse
  isModalOpen : Bool
  selectedFormat : Option FormatInfo
deriving Repr, DecidableEq

/-- Initial page state: empty URL, not loading, no error, no results,
modal closed, no staged format. -/
def initialPageState : PageState :=
  ⟨"", false, none, none, false, none⟩

/-- Browser side effects of the page controller. -/
inductive PageEffect where
  /-- `window.location.href = url` — navigation to a download URL. -/
  | navigate (url : String)
deriving Repr, DecidableEq

/-- A value thrown inside `handleFetch`'s `try` block, as the `catch`
clause discriminates it: an `Error` instance carrying a `message`, a
plain string, or anything else. -/
inductive ThrownValue where
  | errObj (message : String)
  | strVal (s : String)
  | other
deriving Repr, DecidableEq

/-- `"An unknown error occurred."` — the fallback when the error body has
no usable `detail`. -/
def unknownErrorMsg : String := "An unknown error occurred."

/-- `"Failed to connect to the backend. Is it running?"` — the generic
connectivity message. -/
def connectivityErrorMsg : String := "Failed to connect to the backend. Is it running?"

/-- The `catch` clause of `handleFetch`: for an `Error`,
`err.message || connectivityErrorMsg` (an empty message is falsy in JS);
for a string, the string itself; otherwise the connectivity message. -/
def catchSetError : ThrownValue → String
  | ThrownValue.errObj m => if m = "" then connectivityErrorMsg else m
  | ThrownValue.strVal s => s
  | ThrownValue.other => connectivityErrorMsg

/-- The outcome of the `fetch` call inside `handleFetch`: a 2xx response
with a parsed `AnalyzeResponse`, a non-2xx response whose JSON body has an
optional `detail` field, or a thrown value (network failure). -/
inductive FetchOutcome where
  | success (data : AnalyzeResponse)
  | httpError (detail : Option String)
  | networkError (v : ThrownValue)
deriving Repr, DecidableEq

/-- One complete run of `handleFetch` given the fetch outcome. The handler
clears `error` and `results` up front; on success stores the data; on a
non-2xx response throws `new Error(errorData.detail || unknownErrorMsg)`
(an empty-string `detail` is falsy), which the `catch` clause displays; on
a network failure the thrown value reaches the same `catch` clause. The
`finally` block ends with `loading` false. -/
def handleFetch (s : PageState) (o : FetchOutcome) : PageState :=
  let s0 : PageState := { s with error := none, results := none }
  let s1 : PageState :=
    match o with
    | FetchOutcome.success d => { s0 with results := some d }
    | FetchOutcome.httpError detail =>
      let msg :=
        match detail with
        | some d => if d = "" then unknownErrorMsg else d
        | none => unknownErrorMsg
      { s0 with error := some (catchSetError (ThrownValue.errObj msg)) }
    | FetchOutcome.networkError v =>
      { s0 with error := some (catchSetError v) }
  { s1 with loading := false }

/-! ## `encodeURIComponent` and `_handleDownload` -/

/-- Characters `encodeURIComponent` leaves unescaped: ASCII letters,
digits, and `- _ . ! ~ * ' ( )` (the apostrophe is code point 39). -/
def isUnreservedURIChar (c : Char) : Bool :=
  (65 ≤ c.toNat && c.toNat ≤ 90) || (97 ≤ c.toNat && c.toNat ≤ 122) ||
  (48 ≤ c.toNat && c.toNat ≤ 57) ||
  c = '-' || c = '_' || c = '.' || c = '!' || c = '~' || c = '*' ||
  c.toNat = 39 || c = '(' || c = ')'

/-- Uppercase hexadecimal digit for `n < 16`. -/
def hexDigitChar (n : Nat) : Char :=
  if n < 10 then Char.ofNat (48 + n) else Char.ofNat (55 + n)

/-- UTF-8 byte sequence of a code point. -/
def utf8Bytes (n : Nat) : List Nat :=
  if n < 128 then [n]
  else if n < 2048 then [192 + n / 64, 128 + n % 64]
  else if n < 65536 then [224 + n / 4096, 128 + (n / 64) % 64, 128 + n % 64]
  else [240 + n / 262144, 128 + (n / 4096) % 64, 128 + (n / 64) % 64, 128 + n % 64]

/-- `%XX` escape of one byte, with uppercase hex digits. -/
def percentEncodeByte (b : Nat) : List Char :=
  ['%', hexDigitChar (b / 16), hexDigitChar (b % 16)]

/-- `encodeURIComponent` on one character: unreserved characters pass
through, every other character is replaced by the `%XX` escapes of its
UTF-8 bytes. -/
def encodeURIComponentChar (c : Char) : List Char :=
  if isUnreservedURIChar c then [c]
  else ((utf8Bytes c.toNat).map percentEncodeByte).flatten

/-- The browser primitive `encodeURIComponent`. -/
def encodeURIComponent (s : String) : String :=
  ⟨(s.data.map encodeURIComponentChar).flatten⟩

/-- `_handleDownload` from `page.tsx`: returns early when no analysis
results are held; otherwise percent-encodes the original URL, format id,
title, extension and quality, builds the backend download URL from them,
and navigates the browser to it. -/
def _handleDownload (API_URL : String) (s : PageState) (format : FormatInfo) :
    List PageEffect :=
  match s.results with
  | none => []
  | some results =>
    let encodedUrl := encodeURIComponent results.original_url
    let encodedFormatId := encodeURIComponent format.format_id
    let encodedTitle := encodeURIComponent results.title
    let encodedExt := encodeURIComponent format.ext
    let encodedQuality := encodeURIComponent format.quality
    let downloadUrl := API_URL ++ "/api/download?url=" ++ encodedUrl ++
      "&format_id=" ++ encodedFormatId ++ "&title=" ++ encodedTitle ++
      "&ext=" ++ encodedExt ++ "&quality=" ++ encodedQuality
    [PageEffect.navigate downloadUrl]

/-- `handleFormatClick` from `page.tsx`: a premium format is staged as the
selection and the Unlock Gate modal is opened; a non-premium format goes
straight to `_handleDownload`. -/
def handleFormatClick (API_URL : String) (s : PageState) (format : FormatInfo) :
    PageState × List PageEffect :=
  if format.is_premium then
    ({ s with selectedFormat := some format, isModalOpen := true }, [])
  else
    (s, _handleDownload API_URL s format)

/-! ## `sanitizeFilename` (`utils.ts`)

Strings are handled as `List Char` here so that the character-level
regex operations can be stated and proved by structural recursion. -/

/-- The character class `[<>:"/\\|?*\x00-\x1F]` of the removal regex. -/
def isIllegalFilenameChar (c : Char) : Bool :=
  c = '<' || c = '>' || c = ':' || c = '"' || c = '/' || c = '\\' ||
  c = '|' || c = '?' || c = '*' || c.toNat ≤ 31

/-- The JavaScript `\s` class (also the class trimmed by
`String.prototype.trim`): tab through carriage return, space, NBSP,
Ogham space mark, the U+2000–U+200A spaces, line and paragraph
separators, narrow no-break space, medium mathematical space, ideographic
space, and the byte-order mark. -/
def isJsWhitespace (c : Char) : Bool :=
  (9 ≤ c.toNat && c.toNat ≤ 13) || c.toNat = 32 || c.toNat = 160 ||
  c.toNat = 5760 || (8192 ≤ c.toNat && c.toNat ≤ 8202) ||
  c.toNat = 8232 || c.toNat = 8233 || c.toNat = 8239 ||
  c.toNat = 8287 || c.toNat = 12288 || c.toNat = 65279

/-- `replace(/\s+/g, ' ')`, processed left to right: the flag records
whether the previous character was part of a whitespace run, in which
case further whitespace of the same run emits nothing. -/
def collapseWsAux : Bool → List Char → List Char
  | _, [] => []
  | inRun, c :: rest =>
    if isJsWhitespace c then
      if inRun then collapseWsAux true rest
      else ' ' :: collapseWsAux true rest
    else c :: collapseWsAux false rest

/-- `replace(/\s+/g, ' ')`: each maximal whitespace run becomes one
space. -/
def collapseWs (l : List Char) : List Char :=
  collapseWsAux false l

/-- `String.prototype.trim`: drop leading and trailing whitespace. -/
def trimWs (l : List Char) : List Char :=
  ((l.dropWhile isJsWhitespace).reverse.dropWhile isJsWhitespace).reverse

/-- The transformation pipeline of `sanitizeFilename` on a nonempty
input: remove illegal characters, collapse whitespace runs to single
spaces and trim, then truncate to 200 characters (re-trimming after the
cut, as the source calls `.trim()` again on the substring). -/
def sanitizeCore (name : List Char) : List Char :=
  let noIllegal := name.filter (fun c => !isIllegalFilenameChar c)
  let collapsed := trimWs (collapseWs noIllegal)
  if 200 < collapsed.length then trimWs (collapsed.take 200) else collapsed

/-- `sanitizeFilename` from `utils.ts`: `"untitled"` for the empty string;
otherwise run the removal/collapse/trim/truncate pipeline and fall back
to `"download"` when every character was removed. -/
def sanitizeFilename (name : List Char) : List Char :=
  if name = [] then "untitled".data
  else if sanitizeCore name = [] then "download".data else sanitizeCore name

/-- "No run of consecutive whitespace": no two adjacent characters are
both whitespace. -/
abbrev noTwoWs (l : List Char) : Prop :=
  List.Chain' (fun a b => isJsWhitespace a = false ∨ isJsWhitespace b = false) l

/-- Executable check for `noTwoWs`, for evaluation on concrete lists. -/
def noTwoWsB : List Char → Bool
  | [] => true
  | [_] => true
  | a :: b :: rest =>
    (!(isJsWhitespace a && isJsWhitespace b)) && noTwoWsB (b :: rest)

/-! ## General helper lemmas -/

/-- The state returned by `preloadAd` has `isAdReady` false and the handle
unchanged, whether or not the platform global is present. -/
lemma preloadAd_fst (pp : Bool) (s : AdState) :
    (preloadAd pp s).1 = { s with isAdReady := false } := by
  cases pp <;> rfl

/-- The effects of `preloadAd`: one platform request if the platform
global is present, nothing otherwise. -/
lemma preloadAd_snd (pp : Bool) (s : AdState) :
    (preloadAd pp s).2 = if pp then [AdEffect.requestAd] else [] := by
  cases pp <;> rfl

/-! ## Claim theorems -/

/-- C1: for every format passed to `handleFormatClick`: a non-premium
format leaves the page state untouched (in particular the Unlock Gate
modal is not opened) and produces exactly the effects of the download
action `_handleDownload`; a premium format opens the Unlock Gate with the
format staged as `selectedFormat` and triggers no download effect. -/
theorem handleFormatClick_premium_gating (API_URL : String) (s : PageState)
    (format : FormatInfo) :
    (format.is_premium = true →
      (handleFormatClick API_URL s format).1.isModalOpen = true ∧
      (handleFormatClick API_URL s format).1.selectedFormat = some format ∧
      (handleFormatClick API_URL s format).2 = []) ∧
    (format.is_premium = false →
      (handleFormatClick API_URL s format).1 = s ∧
      (handleFormatClick API_URL s format).2 = _handleDownload API_URL s format) := by
  refine ⟨fun h => ?_, fun h => ?_⟩ <;> simp [handleFormatClick, h]

/-- Witness for C1 at a concrete premium format. -/
theorem handleFormatClick_premium_gating_witness :
    (handleFormatClick "http://localhost:8000" initialPageState
      ⟨"Premium HD (1440p)", "mp4", none, true, "f137"⟩).1.isModalOpen = true :=
  ((handleFormatClick_premium_gating "http://localhost:8000" initialPageState
    ⟨"Premium HD (1440p)", "mp4", none, true, "f137"⟩).1 rfl).1

/-- C2: in every state of an open Unlock Gate modal, the unlock button is
enabled (`disabled` is false) exactly when the countdown is 0 and the
ad-loaded flag is true. The enablement is a pure function of the current
values of the two cells, so it is independent of the order in which the
two conditions became true. -/
theorem unlockDisabled_false_iff (s : ModalState) (_h : s.isOpen = true) :
    unlockDisabled s = false ↔ (s.countdown = 0 ∧ s.isAdLoaded = true) := by
  simp [unlockDisabled, isUnlockable]

/-- Witness for C2 at a concrete open state with both conditions met. -/
theorem unlockDisabled_false_iff_witness :
    unlockDisabled ⟨true, 0, true, none, none, none, 3⟩ = false :=
  (unlockDisabled_false_iff ⟨true, 0, true, none, none, none, 3⟩ rfl).mpr ⟨rfl, rfl⟩

/-- C3 counterexample: after a successful load has stored handle 7, a
`preloadAd` whose request ends in `onAdFailedToLoad` leaves the stale
handle stored — the handle is `some 7`, not `none`, refuting the claim
that the handle is empty after every failed preload. -/
theorem preloadFailure_staleHandle_cex :
    (adRun true initialAdState
      [AdEvent.preload, AdEvent.loadSuccess 7, AdEvent.preload,
        AdEvent.loadFailure]).rewardedAd = some 7 ∧
    (adRun true initialAdState
      [AdEvent.preload, AdEvent.loadSuccess 7, AdEvent.preload,
        AdEvent.loadFailure]).isAdReady = false := by
  constructor <;> rfl

/-- C3 amended: a `preloadAd` call whose platform request ends in the
failure callback leaves the readiness flag false and the stored handle
exactly as it was before the call — `onAdFailedToLoad` never clears
`rewardedAd`, so the handle is null afterwards only when it was null
before. -/
theorem preloadFailure_handle_unchanged (pp : Bool) (s : AdState) :
    adRun pp s [AdEvent.preload, AdEvent.loadFailure] =
      { rewardedAd := s.rewardedAd, isAdReady := false } := by
  cases pp <;> rfl

/-- C4: `showRewardedAd` in a state with no stored handle or with the
readiness flag false only raises the blocking alert: the result carries
the `alertNotReady` effect alone (no `platformShow`, no `rewardGranted`)
and no show callbacks, so `onReward` is never invoked. -/
theorem showRewardedAd_blocks_when_not_ready (pp : Bool) (s : AdState)
    (h : s.rewardedAd = none ∨ s.isAdReady = false) :
    showRewardedAd pp s = (s, [AdEffect.alertNotReady], none) := by
  rcases h with h | h <;> simp [showRewardedAd, h]

/-- Witness for C4 at the initial state (no handle, not ready). -/
theorem showRewardedAd_blocks_when_not_ready_witness :
    showRewardedAd true initialAdState =
      (initialAdState, [AdEffect.alertNotReady], none) :=
  showRewardedAd_blocks_when_not_ready true initialAdState (Or.inl rfl)

/-- C5: `showRewardedAd` in a state with a stored handle and readiness
true invokes the platform show operation and hands it two callbacks: the
earned-reward callback grants the reward and then performs exactly one
`preloadAd` (one `rewardGranted` effect followed by the preload's
effects, exactly one `requestAd` when the platform is present), and the
closed callback is exactly one `preloadAd` with no reward. Either
callback leaves `isAdReady` false, so a subsequent `showRewardedAd`
cannot succeed before a new load completes. -/
theorem showRewardedAd_ready_callbacks (pp : Bool) (s : AdState)
    (h1 : s.rewardedAd.isSome = true) (h2 : s.isAdReady = true) :
    ∃ cbs : ShowCallbacks,
      showRewardedAd pp s = (s, [AdEffect.platformShow], some cbs) ∧
      (∀ s2, (cbs.onUserEarnedReward s2).1 = (preloadAd pp s2).1 ∧
        (cbs.onUserEarnedReward s2).2 =
          AdEffect.rewardGranted :: (preloadAd pp s2).2) ∧
      (∀ s2, cbs.onAdClosed s2 = preloadAd pp s2) ∧
      (∀ s2, (cbs.onUserEarnedReward s2).2.count AdEffect.rewardGranted = 1 ∧
        (cbs.onAdClosed s2).2.count AdEffect.rewardGranted = 0) ∧
      (∀ s2, pp = true →
        (cbs.onUserEarnedReward s2).2.count AdEffect.requestAd = 1 ∧
        (cbs.onAdClosed s2).2.count AdEffect.requestAd = 1) ∧
      (∀ s2, (cbs.onUserEarnedReward s2).1.isAdReady = false ∧
        (cbs.onAdClosed s2).1.isAdReady = false) := by
  have hcond : (s.rewardedAd.isSome && s.isAdReady) = true := by simp [h1, h2]
  refine ⟨readyShowCallbacks pp,
    ?_, fun s2 => ⟨rfl, rfl⟩, fun s2 => rfl, ?_, ?_, ?_⟩
  · simp [showRewardedAd, hcond, readyShowCallbacks]
  · intro s2
    cases pp <;>
      simp [readyShowCallbacks, preloadAd, List.count_cons, List.count_nil]
  · rintro s2 rfl
    simp [readyShowCallbacks, preloadAd, List.count_cons, List.count_nil]
  · intro s2
    constructor <;> simp [readyShowCallbacks, preloadAd_fst]

/-- Witness for C5 at a concrete ready state. -/
theorem showRewardedAd_ready_callbacks_witness :
    ∃ cbs : ShowCallbacks,
      showRewardedAd true ⟨some 3, true⟩ =
        (⟨some 3, true⟩, [AdEffect.platformShow], some cbs) := by
  obtain ⟨cbs, h, _⟩ := showRewardedAd_ready_callbacks true ⟨some 3, true⟩ rfl rfl
  exact ⟨cbs, h⟩

/-- `adStep` preserves the invariant "a null handle implies readiness
false": every event either sets readiness false, stores a handle together
with readiness true, or leaves the state unchanged. -/
lemma adStep_preserves_handle_ready (pp : Bool) (s : AdState) (e : AdEvent)
    (h : s.rewardedAd = none → s.isAdReady = false) :
    (adStep pp s e).rewardedAd = none → (adStep pp s e).isAdReady = false := by
  cases e with
  | preload => intro _; simp [adStep, preloadAd_fst]
  | loadSuccess ad => simp [adStep, onAdLoaded]
  | loadFailure => intro _; simp [adStep, onAdFailedToLoad]
  | showEarned =>
    by_cases hc : (s.rewardedAd.isSome && s.isAdReady) = true
    · intro _; simp [adStep, showRewardedAd, hc, preloadAd_fst]
    · simpa [adStep, showRewardedAd, hc] using h
  | showClosed =>
    by_cases hc : (s.rewardedAd.isSome && s.isAdReady) = true
    · intro _; simp [adStep, showRewardedAd, hc, preloadAd_fst]
    · simpa [adStep, showRewardedAd, hc] using h

/-- The invariant "a null handle implies readiness false" is preserved by
every event sequence. -/
lemma adRun_preserves_handle_ready (pp : Bool) (evs : List AdEvent) :
    ∀ s : AdState, (s.rewardedAd = none → s.isAdReady = false) →
      ((adRun pp s evs).rewardedAd = none →
        (adRun pp s evs).isAdReady = false) := by
  induction evs with
  | nil => intro s hs; exact hs
  | cons e rest ih =>
    intro s hs
    exact ih (adStep pp s e) (adStep_preserves_handle_ready pp s e hs)

/-- C6: in every state of the Rewarded-Ad Session Manager reachable from
the initial state by any sequence of preload, load-success, load-failure
and show events, a null stored handle implies that the readiness flag is
false. -/
theorem adRun_handle_none_imp_not_ready (pp : Bool) (evs : List AdEvent)
    (h : (adRun pp initialAdState evs).rewardedAd = none) :
    (adRun pp initialAdState evs).isAdReady = false :=
  adRun_preserves_handle_ready pp evs initialAdState (fun _ => rfl) h

/-- Witness for C6 after a concrete event sequence ending with a null
handle. -/
theorem adRun_handle_none_imp_not_ready_witness :
    (adRun true initialAdState [AdEvent.preload]).isAdReady = false :=
  adRun_handle_none_imp_not_ready true [AdEvent.preload] rfl

/-- C7 counterexample: a network failure — `fetch` rejecting with a
`TypeError` whose message is `"Failed to fetch"` — is displayed as
`"Failed to fetch"`, not as the generic connectivity message, because the
`catch` clause prefers `err.message` over the fallback for any `Error`
with a nonempty message. -/
theorem networkError_shows_own_message_cex :
    (handleFetch initialPageState
      (FetchOutcome.networkError (ThrownValue.errObj "Failed to fetch"))).error =
        some "Failed to fetch" ∧
    "Failed to fetch" ≠ connectivityErrorMsg := by
  exact ⟨rfl, by decide⟩

/-- C7 amended: a non-success response with body detail `"bad url"`
displays exactly `"bad url"`; a non-success response without a detail
field displays the generic fallback; a network failure displays the
thrown error's own message when it is an `Error` with a nonempty message,
the thrown string itself when a string was thrown, and the generic
connectivity message only when the `Error`'s message is empty or the
thrown value is neither an `Error` nor a string. -/
theorem handleFetch_error_display (s : PageState) :
    ((handleFetch s (FetchOutcome.httpError (some "bad url"))).error =
      some "bad url") ∧
    ((handleFetch s (FetchOutcome.httpError none)).error =
      some unknownErrorMsg) ∧
    (∀ m, (handleFetch s
        (FetchOutcome.networkError (ThrownValue.errObj m))).error =
      some (if m = "" then connectivityErrorMsg else m)) ∧
    (∀ t, (handleFetch s
        (FetchOutcome.networkError (ThrownValue.strVal t))).error =
      some t) ∧
    ((handleFetch s (FetchOutcome.networkError ThrownValue.other)).error =
      some connectivityErrorMsg) := by
  refine ⟨rfl, rfl, fun m => ?_, fun t => rfl, rfl⟩
  simp [handleFetch, catchSetError]

/-- C8: when the Page Controller holds an analysis result, the download
operation produces exactly one navigation, to the backend download URL
built from the original URL, format identifier, title, extension and
quality, each passed through `encodeURIComponent`. -/
theorem downloadUrl_encodes_fields (API_URL : String) (s : PageState)
    (r : AnalyzeResponse) (format : FormatInfo) (h : s.results = some r) :
    _handleDownload API_URL s format =
      [PageEffect.navigate (API_URL ++ "/api/download?url=" ++
        encodeURIComponent r.original_url ++ "&format_id=" ++
        encodeURIComponent format.format_id ++ "&title=" ++
        encodeURIComponent r.title ++ "&ext=" ++
        encodeURIComponent format.ext ++ "&quality=" ++
        encodeURIComponent format.quality)] := by
  simp [_handleDownload, h]

/-- Witness for C8 at concrete results and format. -/
theorem downloadUrl_encodes_fields_witness :
    _handleDownload "http://localhost:8000"
      { initialPageState with
        results := some ⟨"My Video", none, [], "https://youtu.be/x y"⟩ }
      ⟨"720p", "mp4", none, false, "f22"⟩ =
      [PageEffect.navigate ("http://localhost:8000" ++ "/api/download?url=" ++
        encodeURIComponent "https://youtu.be/x y" ++ "&format_id=" ++
        encodeURIComponent "f22" ++ "&title=" ++
        encodeURIComponent "My Video" ++ "&ext=" ++
        encodeURIComponent "mp4" ++ "&quality=" ++
        encodeURIComponent "720p")] :=
  downloadUrl_encodes_fields "http://localhost:8000"
    { initialPageState with
      results := some ⟨"My Video", none, [], "https://youtu.be/x y"⟩ }
    ⟨"My Video", none, [], "https://youtu.be/x y"⟩
    ⟨"720p", "mp4", none, false, "f22"⟩ rfl

/-- C9: closing an open Unlock Gate modal clears the
countdown-initialization timer, the countdown interval and the ad-loaded
timer, and resets the ad-loaded flag; afterwards no timer event changes
the state at all, and after a subsequent reopen every timer identifier
allocated before the close is dead — firing it changes nothing — so no
timer leaks across open-close cycles. -/
theorem modalClose_cancels_timers (s : ModalState) (h : s.isOpen = true) :
    (modalStep s ModalEvent.close).initTimer = none ∧
    (modalStep s ModalEvent.close).intervalTimer = none ∧
    (modalStep s ModalEvent.close).adLoadTimer = none ∧
    (modalStep s ModalEvent.close).isAdLoaded = false ∧
    (∀ id, modalStep (modalStep s ModalEvent.close) (ModalEvent.fireInit id) =
        modalStep s ModalEvent.close ∧
      modalStep (modalStep s ModalEvent.close) (ModalEvent.tick id) =
        modalStep s ModalEvent.close ∧
      modalStep (modalStep s ModalEvent.close) (ModalEvent.fireAdLoad id) =
        modalStep s ModalEvent.close) ∧
    (∀ id, id < s.nextId →
      modalStep (modalRun s [ModalEvent.close, ModalEvent.open_])
          (ModalEvent.fireInit id) =
        modalRun s [ModalEvent.close, ModalEvent.open_] ∧
      modalStep (modalRun s [ModalEvent.close, ModalEvent.open_])
          (ModalEvent.tick id) =
        modalRun s [ModalEvent.close, ModalEvent.open_] ∧
      modalStep (modalRun s [ModalEvent.close, ModalEvent.open_])
          (ModalEvent.fireAdLoad id) =
        modalRun s [ModalEvent.close, ModalEvent.open_]) := by
  obtain ⟨o, cd, al, t1, t2, t3, nid⟩ := s
  replace h : o = true := h
  subst h
  refine ⟨rfl, rfl, rfl, rfl, fun id => ⟨rfl, rfl, rfl⟩, ?_⟩
  intro id hid
  replace hid : id < nid := hid
  have hne1 : some nid ≠ some id := by
    simp only [ne_eq, Option.some.injEq]; omega
  have hne2 : some (nid + 1) ≠ some id := by
    simp only [ne_eq, Option.some.injEq]; omega
  have hne3 : some (nid + 2) ≠ some id := by
    simp only [ne_eq, Option.some.injEq]; omega
  refine ⟨?_, ?_, ?_⟩ <;> simp [modalRun, modalStep, hne1, hne2, hne3]

/-- Witness for C9 at a concrete open state. -/
theorem modalClose_cancels_timers_witness :
    (modalStep ⟨true, 15, false, some 0, some 1, some 2, 3⟩
      ModalEvent.close).initTimer = none :=
  (modalClose_cancels_timers ⟨true, 15, false, some 0, some 1, some 2, 3⟩ rfl).1

/-! ### Lemmas about whitespace collapsing and trimming -/

/-- Every character of the collapsed list is a space or came from the
input. -/
lemma mem_collapseWsAux (c : Char) :
    ∀ (b : Bool) (l : List Char), c ∈ collapseWsAux b l → c = ' ' ∨ c ∈ l := by
  intro b l
  induction l generalizing b with
  | nil => intro h; simp [collapseWsAux] at h
  | cons a t ih =>
    intro h
    cases hw : isJsWhitespace a with
    | true =>
      cases b with
      | true =>
        simp only [collapseWsAux, hw, if_true] at h
        rcases ih true h with h1 | h1
        · exact Or.inl h1
        · exact Or.inr (List.mem_cons_of_mem a h1)
      | false =>
        simp only [collapseWsAux, hw, if_true, Bool.false_eq_true, if_false,
          List.mem_cons] at h
        rcases h with h1 | h1
        · exact Or.inl h1
        · rcases ih true h1 with h2 | h2
          · exact Or.inl h2
          · exact Or.inr (List.mem_cons_of_mem a h2)
    | false =>
      simp only [collapseWsAux, hw, Bool.false_eq_true, if_false,
        List.mem_cons] at h
      rcases h with h1 | h1
      · exact Or.inr (by simp [h1])
      · rcases ih false h1 with h2 | h2
        · exact Or.inl h2
        · exact Or.inr (List.mem_cons_of_mem a h2)

/-- The head of a collapsed list entered in run-state true is never
whitespace: whitespace at the front of the input emits nothing. -/
lemma head_collapseWsAux_true :
    ∀ (l : List Char) (c : Char),
      (collapseWsAux true l).head? = some c → isJsWhitespace c = false := by
  intro l
  induction l with
  | nil => intro c h; simp [collapseWsAux] at h
  | cons a t ih =>
    intro c h
    cases hw : isJsWhitespace a with
    | true =>
      simp only [collapseWsAux, hw, if_true] at h
      exact ih c h
    | false =>
      simp only [collapseWsAux, hw, Bool.false_eq_true, if_false,
        List.head?_cons, Option.some.injEq] at h
      subst h
      exact hw

/-- The collapsed list never has two adjacent whitespace characters. -/
lemma noTwoWs_collapseWsAux :
    ∀ (b : Bool) (l : List Char), noTwoWs (collapseWsAux b l) := by
  intro b l
  induction l generalizing b with
  | nil => simp [collapseWsAux]
  | cons a t ih =>
    cases hw : isJsWhitespace a with
    | true =>
      cases b with
      | true => simpa only [collapseWsAux, hw, if_true] using ih true
      | false =>
        simp only [collapseWsAux, hw, if_true, Bool.false_eq_true, if_false]
        exact List.chain'_cons'.mpr
          ⟨fun y hy => Or.inr (head_collapseWsAux_true t y (Option.mem_def.mp hy)),
            ih true⟩
    | false =>
      simp only [collapseWsAux, hw, Bool.false_eq_true, if_false]
      exact List.chain'_cons'.mpr ⟨fun y _ => Or.inl hw, ih false⟩

/-- The head of `dropWhile p` never satisfies `p`. -/
lemma head?_dropWhile_not (p : Char → Bool) :
    ∀ (l : List Char) (c : Char), (l.dropWhile p).head? = some c →
      p c = false := by
  intro l
  induction l with
  | nil => intro c h; simp [List.dropWhile] at h
  | cons a t ih =>
    intro c h
    cases hp : p a with
    | true =>
      simp only [List.dropWhile_cons, hp, if_true] at h
      exact ih c h
    | false =>
      simp only [List.dropWhile_cons, hp, Bool.false_eq_true, if_false,
        List.head?_cons, Option.some.injEq] at h
      subst h
      exact hp

/-- A nonempty `dropWhile` keeps the last element of the list. -/
lemma getLast?_dropWhile (p : Char → Bool) :
    ∀ (l : List Char), l.dropWhile p ≠ [] →
      (l.dropWhile p).getLast? = l.getLast? := by
  intro l
  induction l with
  | nil => intro h; simp [List.dropWhile] at h
  | cons a t ih =>
    intro h
    cases hp : p a with
    | false => simp [List.dropWhile_cons, hp]
    | true =>
      simp only [List.dropWhile_cons, hp, if_true] at h ⊢
      rw [ih h]
      have ht : t ≠ [] := by
        intro he
        rw [he] at h
        simp [List.dropWhile] at h
      cases t with
      | nil => exact absurd rfl ht
      | cons b t2 => simp [List.getLast?_cons_cons]

/-- `getLast?` of a reversed list is the head of the original. -/
lemma getLast?_reverse_eq (l : List Char) : l.reverse.getLast? = l.head? := by
  have h := List.head?_reverse l.reverse
  rw [List.reverse_reverse] at h
  exact h.symm

/-- Characters of the trimmed list come from the original list. -/
lemma trimWs_subset (c : Char) (l : List Char) (h : c ∈ trimWs l) :
    c ∈ l := by
  unfold trimWs at h
  rw [List.mem_reverse] at h
  have h1 := (List.dropWhile_sublist isJsWhitespace).subset h
  rw [List.mem_reverse] at h1
  exact (List.dropWhile_sublist isJsWhitespace).subset h1

/-- Trimming never lengthens a list. -/
lemma trimWs_length_le (l : List Char) : (trimWs l).length ≤ l.length := by
  have h1 := (List.dropWhile_sublist
    (l := (l.dropWhile isJsWhitespace).reverse) isJsWhitespace).length_le
  have h2 := (List.dropWhile_sublist (l := l) isJsWhitespace).length_le
  simp only [List.length_reverse] at h1
  simpa [trimWs] using le_trans h1 h2

/-- The first character of a trimmed list is not whitespace. -/
lemma trimWs_head? (l : List Char) (c : Char)
    (h : (trimWs l).head? = some c) : isJsWhitespace c = false := by
  unfold trimWs at h
  rw [List.head?_reverse] at h
  have hne : (l.dropWhile isJsWhitespace).reverse.dropWhile isJsWhitespace ≠
      [] := by
    intro he
    rw [he] at h
    simp at h
  rw [getLast?_dropWhile isJsWhitespace _ hne, getLast?_reverse_eq] at h
  exact head?_dropWhile_not isJsWhitespace l c h

/-- The last character of a trimmed list is not whitespace. -/
lemma trimWs_getLast? (l : List Char) (c : Char)
    (h : (trimWs l).getLast? = some c) : isJsWhitespace c = false := by
  unfold trimWs at h
  rw [getLast?_reverse_eq] at h
  exact head?_dropWhile_not isJsWhitespace _ c h

/-- `dropWhile` preserves the no-adjacent-whitespace property. -/
lemma noTwoWs_dropWhile (p : Char → Bool) :
    ∀ (l : List Char), noTwoWs l → noTwoWs (l.dropWhile p) := by
  intro l
  induction l with
  | nil => intro h; simp [List.dropWhile]
  | cons a t ih =>
    intro h
    cases hp : p a with
    | true =>
      simp only [List.dropWhile_cons, hp, if_true]
      exact ih (List.Chain'.tail h)
    | false => simpa [List.dropWhile_cons, hp] using h

/-- `reverse` preserves the no-adjacent-whitespace property. -/
lemma noTwoWs_reverse (l : List Char) (h : noTwoWs l) : noTwoWs l.reverse := by
  rw [noTwoWs, List.chain'_reverse]
  exact List.Chain'.imp (fun a b hab => Or.symm hab) h

/-- `take` preserves the no-adjacent-whitespace property. -/
lemma noTwoWs_take (n : Nat) (l : List Char) (h : noTwoWs l) :
    noTwoWs (l.take n) := by
  rw [← List.take_append_drop n l] at h
  exact h.left_of_append

/-- Trimming preserves the no-adjacent-whitespace property. -/
lemma noTwoWs_trimWs (l : List Char) (h : noTwoWs l) : noTwoWs (trimWs l) := by
  unfold trimWs
  exact noTwoWs_reverse _ (noTwoWs_dropWhile _ _ (noTwoWs_reverse _
    (noTwoWs_dropWhile _ _ h)))

/-- The executable check agrees with the `Chain'` formulation. -/
lemma noTwoWs_iff (l : List Char) : noTwoWs l ↔ noTwoWsB l = true := by
  unfold noTwoWs
  induction l with
  | nil => simp [noTwoWsB]
  | cons a t ih =>
    cases t with
    | nil => simp [noTwoWsB]
    | cons b t2 =>
      rw [List.chain'_cons, ih]
      simp only [noTwoWsB, Bool.and_eq_true]
      cases h1 : isJsWhitespace a <;> cases h2 : isJsWhitespace b <;>
        simp [h1, h2]

/-- `sanitizeCore` with its intermediate bindings expanded. -/
lemma sanitizeCore_eq (name : List Char) :
    sanitizeCore name =
      if 200 < (trimWs (collapseWs
          (name.filter (fun c => !isIllegalFilenameChar c)))).length then
        trimWs ((trimWs (collapseWs
          (name.filter (fun c => !isIllegalFilenameChar c)))).take 200)
      else
        trimWs (collapseWs (name.filter (fun c => !isIllegalFilenameChar c))) :=
  rfl

/-- The pipeline output is at most 200 characters, is built from spaces
and surviving input characters, has no whitespace at either end, and has
no two adjacent whitespace characters. -/
lemma sanitizeCore_props (name : List Char) :
    (sanitizeCore name).length ≤ 200 ∧
    (∀ c ∈ sanitizeCore name,
      c = ' ' ∨ (c ∈ name ∧ isIllegalFilenameChar c = false)) ∧
    (∀ c, (sanitizeCore name).head? = some c → isJsWhitespace c = false) ∧
    (∀ c, (sanitizeCore name).getLast? = some c → isJsWhitespace c = false) ∧
    noTwoWs (sanitizeCore name) := by
  rw [sanitizeCore_eq]
  by_cases h : 200 < (trimWs (collapseWs
      (name.filter (fun c => !isIllegalFilenameChar c)))).length
  · rw [if_pos h]
    refine ⟨?_, ?_, fun c => trimWs_head? _ c, fun c => trimWs_getLast? _ c, ?_⟩
    · exact le_trans (trimWs_length_le _) (List.length_take_le _ _)
    · intro c hc
      have h1 := trimWs_subset c _ hc
      have h2 := List.take_subset _ _ h1
      have h3 := trimWs_subset c _ h2
      rcases mem_collapseWsAux c false _ h3 with h4 | h4
      · exact Or.inl h4
      · rw [List.mem_filter] at h4
        exact Or.inr ⟨h4.1, by simpa using h4.2⟩
    · exact noTwoWs_trimWs _ (noTwoWs_take _ _ (noTwoWs_trimWs _
        (noTwoWs_collapseWsAux false _)))
  · rw [if_neg h]
    refine ⟨by omega, ?_, fun c => trimWs_head? _ c, fun c => trimWs_getLast? _ c, ?_⟩
    · intro c hc
      have h3 := trimWs_subset c _ hc
      rcases mem_collapseWsAux c false _ h3 with h4 | h4
      · exact Or.inl h4
      · rw [List.mem_filter] at h4
        exact Or.inr ⟨h4.1, by simpa using h4.2⟩
    · exact noTwoWs_trimWs _ (noTwoWs_collapseWsAux false _)

/-- C10: for every input, `sanitizeFilename` returns a nonempty list of
at most 200 characters none of which is an illegal filename character
(`< > : " / \ | ? *` or a control character), with no whitespace at
either end and no two adjacent whitespace characters; the empty input
yields `"untitled"` and an input whose characters are all illegal yields
`"download"`. -/
theorem sanitizeFilename_correct (name : List Char) :
    sanitizeFilename name ≠ [] ∧
    (sanitizeFilename name).length ≤ 200 ∧
    (∀ c ∈ sanitizeFilename name, isIllegalFilenameChar c = false) ∧
    (∀ c, (sanitizeFilename name).head? = some c →
      isJsWhitespace c = false) ∧
    (∀ c, (sanitizeFilename name).getLast? = some c →
      isJsWhitespace c = false) ∧
    noTwoWs (sanitizeFilename name) ∧
    (name = [] → sanitizeFilename name = "untitled".data) ∧
    (name ≠ [] → (∀ c ∈ name, isIllegalFilenameChar c = true) →
      sanitizeFilename name = "download".data) := by
  by_cases hn : name = []
  · subst hn
    refine ⟨by decide, by decide, by decide, ?_, ?_,
      (noTwoWs_iff _).mpr (by decide),
      fun _ => rfl, fun h => absurd rfl h⟩
    · intro c h
      have h2 : some 'u' = some c := h
      injection h2 with h3
      subst h3
      decide
    · intro c h
      have h2 : some 'd' = some c := h
      injection h2 with h3
      subst h3
      decide
  · have hS : sanitizeFilename name =
        if sanitizeCore name = [] then "download".data
        else sanitizeCore name := by
      unfold sanitizeFilename
      rw [if_neg hn]
    obtain ⟨hlen, hmem, hhead, hlast, hchain⟩ := sanitizeCore_props name
    by_cases hc : sanitizeCore name = []
    · rw [hS, if_pos hc]
      refine ⟨by decide, by decide, by decide, ?_, ?_,
        (noTwoWs_iff _).mpr (by decide),
        fun he => absurd he hn, fun _ _ => rfl⟩
      · intro c h
        have h2 : some 'd' = some c := h
        injection h2 with h3
        subst h3
        decide
      · intro c h
        have h2 : some 'd' = some c := h
        injection h2 with h3
        subst h3
        decide
    · rw [hS, if_neg hc]
      refine ⟨hc, hlen, ?_, hhead, hlast, hchain,
        fun he => absurd he hn, ?_⟩
      · intro c hcm
        rcases hmem c hcm with h1 | h1
        · subst h1; decide
        · exact h1.2
      · intro _ hall
        have hf : name.filter (fun c => !isIllegalFilenameChar c) = [] := by
          rw [List.filter_eq_nil_iff]
          intro a ha
          simp [hall a ha]
        have hcore : sanitizeCore name = [] := by
          rw [sanitizeCore_eq, hf]
          rfl
        exact absurd hcore hc

/-- Witness for C10 at a concrete input with illegal characters and
whitespace runs. -/
theorem sanitizeFilename_correct_witness :
    sanitizeFilename ("  a<b  c?  ".data) ≠ [] :=
  (sanitizeFilename_correct ("  a<b  c?  ".data)).1

end Vydra
